import Mathlib

/-!
Verification model of the `jsonframer` Go package
(`src/lib/go/jsonframer/jsonframer.go`), which turns a JSON document into one
or more columnar data frames.

The embedding keeps the shape of the Go code: JSON text is modelled as Lean
`String`, JSON documents as an inductive `JSON` value, the external `gjson`
collaborator as an executable parser / path resolver / renderer, and the Go
result convention `(value, error)` as a pair with an `Option Err` component.
`jsonata` compilation/evaluation, the grafana SDK's long-to-wide reshaper and
the sqlite3 query helper are external collaborators and are passed in as an
explicit `Ext` record.  The frame assembler (`gframer.ToDataFrame`) is code of
the repository that is not part of the sources here; it is modelled from the
specification (see `toDataFrame`).
-/

namespace Jsonframer

/-- JSON document model: a tagged variant over null, booleans, numbers (kept
as their raw literal text, since the pipeline never computes with them),
strings, ordered arrays and ordered objects. -/
inductive JSON where
  | null
  | bool (b : Bool)
  | num (raw : String)
  | str (s : String)
  | arr (items : List JSON)
  | obj (entries : List (String × JSON))

/-- left brace character, written via its code point -/
def lbrace : Char := Char.ofNat 123

/-- right brace character, written via its code point -/
def rbrace : Char := Char.ofNat 125

/-- whitespace characters recognised by the JSON scanner -/
def isWsChar (c : Char) : Bool :=
  c = ' ' || c = '\t' || c = '\n' || c = '\r'

/-- drop leading whitespace -/
def skipWs : List Char → List Char
  | [] => []
  | c :: cs => if isWsChar c then skipWs cs else c :: cs

/-- translate a character that follows a backslash in a JSON string literal
(the `\u` form and exotic escapes are not modelled; inputs in this
development use none) -/
def unescapeChar (c : Char) : Char :=
  if c = 'n' then '\n'
  else if c = 't' then '\t'
  else if c = 'r' then '\r'
  else c

/-- consume the body of a JSON string literal after the opening quote,
returning the decoded text and the input after the closing quote -/
def takeStringLit : List Char → Option (String × List Char)
  | [] => none
  | c :: cs =>
    if c = '"' then some ("", cs)
    else if c = '\\' then
      match cs with
      | [] => none
      | e :: cs2 =>
        match takeStringLit cs2 with
        | some (s, rest) => some (String.mk (unescapeChar e :: s.data), rest)
        | none => none
    else
      match takeStringLit cs with
      | some (s, rest) => some (String.mk (c :: s.data), rest)
      | none => none

/-- characters that may appear in a JSON number literal -/
def isNumChar (c : Char) : Bool :=
  c.isDigit || c = '-' || c = '+' || c = '.' || c = 'e' || c = 'E'

/-- split off a maximal run of number-literal characters -/
def takeNum : List Char → List Char × List Char
  | [] => ([], [])
  | c :: cs =>
    if isNumChar c then
      let r := takeNum cs
      (c :: r.1, r.2)
    else ([], c :: cs)

/-- match a literal character sequence, returning the rest of the input -/
def dropLit : List Char → List Char → Option (List Char)
  | [], rest => some rest
  | p :: ps, c :: cs => if c = p then dropLit ps cs else none
  | _ :: _, [] => none

mutual

/-- fuel-bounded recursive-descent JSON parser: one value -/
def parseValue : Nat → List Char → Option (JSON × List Char)
  | 0, _ => none
  | fuel + 1, input =>
    match skipWs input with
    | [] => none
    | c :: cs =>
      if c = '"' then
        match takeStringLit cs with
        | some (s, rest) => some (JSON.str s, rest)
        | none => none
      else if c = '[' then
        match skipWs cs with
        | c2 :: cs2 =>
          if c2 = ']' then some (JSON.arr [], cs2)
          else
            match parseItems fuel (c2 :: cs2) with
            | some (items, rest) => some (JSON.arr items, rest)
            | none => none
        | [] => none
      else if c = lbrace then
        match skipWs cs with
        | c2 :: cs2 =>
          if c2 = rbrace then some (JSON.obj [], cs2)
          else
            match parseEntries fuel (c2 :: cs2) with
            | some (es, rest) => some (JSON.obj es, rest)
            | none => none
        | [] => none
      else if c = 't' then
        match dropLit ['r', 'u', 'e'] cs with
        | some rest => some (JSON.bool true, rest)
        | none => none
      else if c = 'f' then
        match dropLit ['a', 'l', 's', 'e'] cs with
        | some rest => some (JSON.bool false, rest)
        | none => none
      else if c = 'n' then
        match dropLit ['u', 'l', 'l'] cs with
        | some rest => some (JSON.null, rest)
        | none => none
      else if c.isDigit || c = '-' then
        match takeNum (c :: cs) with
        | (ds, rest) =>
          if ds.isEmpty then none else some (JSON.num (String.mk ds), rest)
      else none

/-- fuel-bounded recursive-descent JSON parser: comma-separated array items up
to the closing bracket -/
def parseItems : Nat → List Char → Option (List JSON × List Char)
  | 0, _ => none
  | fuel + 1, input =>
    match parseValue fuel input with
    | none => none
    | some (v, rest) =>
      match skipWs rest with
      | c :: cs =>
        if c = ',' then
          match parseItems fuel cs with
          | some (vs, rest2) => some (v :: vs, rest2)
          | none => none
        else if c = ']' then some ([v], cs)
        else none
      | [] => none

/-- fuel-bounded recursive-descent JSON parser: comma-separated object entries
up to the closing brace -/
def parseEntries : Nat → List Char → Option (List (String × JSON) × List Char)
  | 0, _ => none
  | fuel + 1, input =>
    match skipWs input with
    | c :: cs =>
      if c = '"' then
        match takeStringLit cs with
        | some (k, rest) =>
          match skipWs rest with
          | c2 :: cs2 =>
            if c2 = ':' then
              match parseValue fuel cs2 with
              | some (v, rest2) =>
                match skipWs rest2 with
                | c3 :: cs3 =>
                  if c3 = ',' then
                    match parseEntries fuel cs3 with
                    | some (es, rest3) => some ((k, v) :: es, rest3)
                    | none => none
                  else if c3 = rbrace then some ([(k, v)], cs3)
                  else none
                | [] => none
              | none => none
            else none
          | [] => none
        | none => none
      else none
    | [] => none

end

/-- parse a whole JSON text; `none` models `gjson.Valid` rejecting the text -/
def parseJson (s : String) : Option JSON :=
  match parseValue (2 * s.length + 4) s.data with
  | some (v, rest) => if (skipWs rest).isEmpty then some v else none
  | none => none

mutual

/-- render a JSON value as compact JSON text, preserving entry order (models
the raw text `gjson` keeps for a subtree; string escaping is not modelled,
inputs in this development need none) -/
def serialize : JSON → String
  | .null => "null"
  | .bool true => "true"
  | .bool false => "false"
  | .num raw => raw
  | .str s => "\"" ++ s ++ "\""
  | .arr items => "[" ++ serializeItems items ++ "]"
  | .obj es => String.singleton lbrace ++ serializeEntries es ++ String.singleton rbrace

/-- render array items, comma separated -/
def serializeItems : List JSON → String
  | [] => ""
  | [v] => serialize v
  | v :: vs => serialize v ++ "," ++ serializeItems vs

/-- render object entries, comma separated -/
def serializeEntries : List (String × JSON) → String
  | [] => ""
  | [(k, v)] => "\"" ++ k ++ "\":" ++ serialize v
  | (k, v) :: es => "\"" ++ k ++ "\":" ++ serialize v ++ "," ++ serializeEntries es

end

/-! ## Structural path resolution (the `gjson.Get` collaborator) -/

/-- split a selector on dots into path segments -/
def splitPathAux : List Char → List Char → List String
  | acc, [] => [String.mk acc.reverse]
  | acc, c :: cs =>
    if c = '.' then String.mk acc.reverse :: splitPathAux [] cs
    else splitPathAux (c :: acc) cs

/-- split a selector string on dots -/
def splitPath (s : String) : List String := splitPathAux [] s.data

/-- read a path segment as an array index when it is all digits -/
def segToNat : String → Option Nat := fun s =>
  if s.data ≠ [] && s.data.all Char.isDigit then some s.toNat! else none

/-- first binding of a key in an ordered JSON object -/
def assocFind : List (String × JSON) → String → Option JSON
  | [], _ => none
  | (k, v) :: es, key => if k = key then some v else assocFind es key

/-- one navigation step: object key lookup, or numeric index into an array -/
def pathStep (v : JSON) (seg : String) : Option JSON :=
  match v with
  | .obj es => assocFind es seg
  | .arr items =>
    match segToNat seg with
    | some i => items.get? i
    | none => none
  | _ => none

/-- navigate a value along already-split path segments -/
def pathGetSegs : List String → JSON → Option JSON
  | [], v => some v
  | s :: ss, v =>
    match pathStep v s with
    | some v2 => pathGetSegs ss v2
    | none => none

/-- literal structural path lookup into a JSON value: dot-separated segments,
object keys by name, array elements by numeric index (models the plain-path
fragment of `gjson.Get`; `none` models a non-existing result) -/
def pathGet (v : JSON) (path : String) : Option JSON :=
  pathGetSegs (splitPath path) v

/-- textual rendering `gjson` gives a resolved result via `Result.String()`:
null renders as the empty string, booleans as `true` or `false`, numbers as
their literal text, strings as their unquoted content, and arrays and objects
as their raw JSON text -/
def resultString : JSON → String
  | .null => ""
  | .bool b => if b then "true" else "false"
  | .num raw => raw
  | .str s => s
  | .arr items => serialize (.arr items)
  | .obj es => serialize (.obj es)

/-! ## Go-map marshaling (`encoding/json.Marshal` of `map[string]interface{}`) -/

/-- byte-wise comparison of key character lists -/
def charsLe : List Char → List Char → Bool
  | [], _ => true
  | _ :: _, [] => false
  | a :: as', b :: bs =>
    if a.toNat < b.toNat then true
    else if b.toNat < a.toNat then false
    else charsLe as' bs

/-- lexicographic order on keys, as Go's `sort.Strings` orders map keys -/
def strLe (a b : String) : Bool := charsLe a.data b.data

/-- insert one entry into a key-sorted entry list -/
def insertEntry (e : String × JSON) : List (String × JSON) → List (String × JSON)
  | [] => [e]
  | f :: fs => if strLe e.1 f.1 then e :: f :: fs else f :: insertEntry e fs

/-- sort object entries by key (insertion sort) -/
def sortEntries : List (String × JSON) → List (String × JSON)
  | [] => []
  | e :: es => insertEntry e (sortEntries es)

mutual

/-- normal form `encoding/json.Marshal` produces for a value that passed
through Go maps: object keys are emitted in sorted order, recursively -/
def canonGo : JSON → JSON
  | .arr items => .arr (canonList items)
  | .obj es => .obj (sortEntries (canonEntries es))
  | v => v

/-- canonicalize each array element -/
def canonList : List JSON → List JSON
  | [] => []
  | v :: vs => canonGo v :: canonList vs

/-- canonicalize each object entry value -/
def canonEntries : List (String × JSON) → List (String × JSON)
  | [] => []
  | (k, v) :: es => (k, canonGo v) :: canonEntries es

end

/-- JSON text produced by `encoding/json.Marshal` for data held in Go maps -/
def goMarshal (v : JSON) : String := serialize (canonGo v)

/-! ## Errors and options -/

/-- error values the pipeline can return (Go returns these through its `error`
result; classes follow the distinct `errors.New` / sentinel values of the
source) -/
inductive Err where
  | emptyJson
  | invalidJson
  | sqlite3MultiFrame
  | invalidRootSelector (sel : String)
  | jsonataEvalFailed (msg : String)
  | invalidJSONContent (msg : String)
  | unmarshalFailed (msg : String)
  | frameBuild (msg : String)
  | longToWideFailed (msg : String)
  | sqlite3Failed (msg : String)
deriving DecidableEq, Repr

/-- one requested output column (`jsonframer.ColumnSelector`) -/
structure ColumnSelector where
  selector : String := ""
  aliasName : String := ""
  type : String := ""
  timeFormat : String := ""
deriving DecidableEq, Repr

/-- name a column's values are stored under: the alias, defaulting to the
selector when the alias is empty -/
def ColumnSelector.outName (c : ColumnSelector) : String :=
  if c.aliasName = "" then c.selector else c.aliasName

/-- options of one framing call (`jsonframer.FramerOptions`) -/
structure FramerOptions where
  framerType : String := ""
  sqlite3Query : String := ""
  frameName : String := ""
  rootSelector : String := ""
  columns : List ColumnSelector := []
  overrideColumns : List ColumnSelector := []
  frameFormat : String := ""

/-! ## Frames -/

/-- one typed column of a frame -/
structure FrameColumn where
  name : String
  ctype : String
  values : List JSON

/-- a named rectangular table of typed columns -/
structure Frame where
  name : String
  columns : List FrameColumn

/-- number of rows of a frame (length of its first column; zero when the
frame has no columns) -/
def Frame.rowCount (f : Frame) : Nat :=
  match f.columns with
  | [] => 0
  | c :: _ => c.values.length

/-- names of a frame's columns in order -/
def Frame.columnNames (f : Frame) : List String := f.columns.map FrameColumn.name

/-! ## External collaborators -/

/-- outcome of a Go call: either a normal return value or a runtime panic
(which no code of this package recovers from) -/
inductive Outcome (α : Type) where
  | crash (msg : String)
  | ret (val : α)

/-- external collaborators of the pipeline: the JSONata
compiler/evaluator (`xiatechs/jsonata-go`), the grafana SDK's long time-series
detection and long-to-wide reshaper, and the sqlite3 query helper
`QueryJSONUsingSQLite3` (repository code outside these sources, behaviourally
opaque here).  A compiled JSONata program is modelled as an evaluator from the
parsed document to a result value. -/
structure Ext where
  jsonataCompile : String → Option (JSON → Except String JSON)
  isLong : Frame → Bool
  longToWide : Frame → Except String Frame
  sqlite3Query : String → String → String → String × Option Err

/-! ## The pipeline (translated from `jsonframer.go`) -/

/-- `validateJson`: empty or whitespace-only text is rejected as
`empty json received`; text `gjson.Valid` rejects is
`invalid json response received` -/
def validateJson (jsonString : String) : Option Err :=
  if jsonString.data.all isWsChar then some .emptyJson
  else if (parseJson jsonString).isNone then some .invalidJson
  else none

/-- `GetRootData`: an empty selector returns the input unchanged; otherwise a
resolving literal `gjson` path wins and its `Result.String()` text is
returned; otherwise the selector is handed to `jsonata.MustCompile`, which
panics when the selector is not a valid JSONata program (the source's
`expr == nil` check is unreachable), then the parsed document is evaluated
and the result marshalled back to JSON text -/
def GetRootData (E : Ext) (jsonString rootSelector : String) :
    Outcome (String × Option Err) :=
  if rootSelector = "" then .ret (jsonString, none)
  else
    match (parseJson jsonString).bind (fun v => pathGet v rootSelector) with
    | some r => .ret (resultString r, none)
    | none =>
      match E.jsonataCompile rootSelector with
      | none => .crash ("jsonata compile: " ++ rootSelector)
      | some prog =>
        match parseJson jsonString with
        | none => .ret ("", some (.invalidJSONContent "json unmarshal failed"))
        | some d =>
          match prog d with
          | .error m => .ret ("", some (.jsonataEvalFailed m))
          | .ok res => .ret (goMarshal res, none)

/-- `convertFieldValueType`: returns its input unchanged, ignoring the
column's declared type -/
def convertFieldValueType (input : JSON) (_col : ColumnSelector) : JSON := input

/-- store a value under a key in a Go map modelled as an ordered association
list: an existing binding is overwritten in place, a new key is appended -/
def mapInsert (m : List (String × JSON)) (k : String) (v : JSON) :
    List (String × JSON) :=
  match m with
  | [] => [(k, v)]
  | (k2, v2) :: rest =>
    if k2 = k then (k2, v) :: rest else (k2, v2) :: mapInsert rest k v

/-- value a column selector extracts from one row: resolve the selector path
(a non-existing path yields null, as `gjson` returns a nil `Value()`), then
convert it per the column -/
def selectedValue (row : JSON) (c : ColumnSelector) : JSON :=
  convertFieldValueType
    (match pathGet row c.selector with
     | some v => v
     | none => JSON.null) c

/-- build one projected output row: for each column, store the selected value
under the output name -/
def projectRow (columns : List ColumnSelector) (row : JSON) :
    List (String × JSON) :=
  columns.foldl (fun oi col => mapInsert oi col.outName (selectedValue row col)) []

/-- last column selector with a given output name, if any (later selectors
with the same output name overwrite earlier ones in the row's Go map) -/
def lastSpecFor (columns : List ColumnSelector) (n : String) :
    Option ColumnSelector :=
  columns.foldl (fun acc c => if c.outName = n then some c else acc) none

/-- true when the value is a JSON object -/
def isObjJ : JSON → Bool
  | .obj _ => true
  | _ => false

/-- true when the value is a JSON array -/
def isArrJ : JSON → Bool
  | .arr _ => true
  | _ => false

/-- `getColumnValuesFromResponseString`: with a non-empty column list, parse
the response, project each array element (or the single object) into a row
keyed by output names, and marshal the rows back to JSON text through Go
maps; with no columns the response passes through unchanged -/
def getColumnValuesFromResponseString (responseString : String)
    (columns : List ColumnSelector) : String × Option Err :=
  if columns.length > 0 then
    let rows : List (List (String × JSON)) :=
      match parseJson responseString with
      | some (.arr items) => items.map (projectRow columns)
      | some v => if isObjJ v then [projectRow columns v] else []
      | none => []
    (goMarshal (.arr (rows.map JSON.obj)), none)
  else (responseString, none)

/-- run a fallible builder over a list, stopping at the first error (the
explicit counterpart of `mapM` over `Except`) -/
def exceptMapList {α β : Type} (f : α → Except Err β) : List α → Except Err (List β)
  | [] => .ok []
  | a :: as' =>
    match f a with
    | .error e => .error e
    | .ok b =>
      match exceptMapList f as' with
      | .error e => .error e
      | .ok bs => .ok (b :: bs)

/-- adjacent-pairs check that a key list is in ascending `strLe` order -/
def keysSortedB : List String → Bool
  | [] => true
  | [_] => true
  | a :: b :: rest => strLe a b && keysSortedB (b :: rest)

/-! ## Frame assembly (spec-modelled: `gframer.ToDataFrame`) -/

/-- options handed to the frame assembler (`gframer.FramerOptions`, as filled
in by `getFrameFromResponseString`) -/
structure GFramerOptions where
  frameName : String := ""
  columns : List ColumnSelector := []
  overrideColumns : List ColumnSelector := []

/-- copy the framer options into the assembler options, as
`getFrameFromResponseString` does field by field -/
def gframerOptions (o : FramerOptions) : GFramerOptions :=
  { frameName := o.frameName, columns := o.columns,
    overrideColumns := o.overrideColumns }

/-- row set a resolved value stands for: an array is one row per element,
anything else is a single row -/
def rowsOf : JSON → List JSON
  | .arr items => items
  | v => [v]

/-- keep the first occurrence of each name, preserving order -/
def dedupFirstAux : List String → List String → List String
  | _, [] => []
  | seen, s :: ss =>
    if seen.contains s then dedupFirstAux seen ss
    else s :: dedupFirstAux (s :: seen) ss

/-- first-seen deduplication of a name list -/
def dedupFirst (l : List String) : List String := dedupFirstAux [] l

/-- keys contributed by one row (object rows contribute their keys in order;
scalar and array rows contribute none, a point the spec leaves open) -/
def rowKeys : JSON → List String
  | .obj es => es.map Prod.fst
  | _ => []

/-- inferred column names: the union of keys across all rows in first-seen
order -/
def inferColumns (rows : List JSON) : List String :=
  dedupFirst (rows.map rowKeys).flatten

/-- cell of a row under a column name; a missing key (or a non-object row)
is the null representation -/
def cellOf (row : JSON) (name : String) : JSON :=
  match row with
  | .obj es =>
    match assocFind es name with
    | some v => v
    | none => .null
  | _ => .null

/-- digit-only non-empty character run -/
def digitsOnly (l : List Char) : Bool := !l.isEmpty && l.all Char.isDigit

/-- split a character run at the first dot -/
def splitAtDot : List Char → List Char × Option (List Char)
  | [] => ([], none)
  | c :: cs =>
    if c = '.' then ([], some cs)
    else
      let r := splitAtDot cs
      (c :: r.1, r.2)

/-- integer or decimal numeric literal (an optional leading minus, digits,
optionally a dot and more digits; exponents are not modelled, the spec does
not mention them) -/
def isNumLit (s : String) : Bool :=
  let body :=
    match s.data with
    | '-' :: rest => rest
    | l => l
  match splitAtDot body with
  | (intPart, none) => digitsOnly intPart
  | (intPart, some fracPart) => digitsOnly intPart && digitsOnly fracPart

/-- canonical textual rendering of a scalar value -/
def scalarText : JSON → String
  | .null => ""
  | .bool b => if b then "true" else "false"
  | .num raw => raw
  | .str s => s
  | v => serialize v

/-- Modelled from the spec: per-column type coercion of the frame assembler
(`gframer`, code of this repository that is not under the sources here).
Follows section 4.2/4.3 of the spec: a nested array or object where a declared
type expects a scalar is a frame-build error; under `number`, unparsable text
degrades to null; under `string`, scalars render canonically as text; the
timestamp types only re-tag the column (calendar arithmetic is not modelled);
an empty or `auto` type passes values through. -/
def coerceValue (t : String) (v : JSON) : Except Err JSON :=
  if t = "" || t = "auto" then .ok v
  else
    match v with
    | .null => .ok .null
    | .arr _ => .error (.frameBuild "cannot put a nested value in a scalar column")
    | .obj _ => .error (.frameBuild "cannot put a nested value in a scalar column")
    | sv =>
      if t = "string" then .ok (.str (scalarText sv))
      else if t = "number" then
        match sv with
        | .num raw => .ok (.num raw)
        | .str s => .ok (if isNumLit s then .num s else .null)
        | _ => .ok .null
      else .ok sv

/-- declared type of an output column name, from the first column selector
bearing that output name -/
def typeOfDeclared : List ColumnSelector → String → String
  | [], _ => ""
  | c :: cs, n => if c.outName = n then c.type else typeOfDeclared cs n

/-- materialize one column: the row cells under the column name, coerced to
the column's declared type -/
def buildColumn (rows : List JSON) (name t : String) : Except Err FrameColumn :=
  match exceptMapList (fun r => coerceValue t (cellOf r name)) rows with
  | .ok vs => .ok ⟨name, t, vs⟩
  | .error e => .error e

/-- apply one override: re-type the column whose name equals the override's
selector in place, leaving row count, column order and other columns alone -/
def applyOverride (cols : List FrameColumn) (ov : ColumnSelector) :
    Except Err (List FrameColumn) :=
  match cols with
  | [] => .ok []
  | c :: rest =>
    if c.name = ov.selector then
      match exceptMapList (coerceValue ov.type) c.values with
      | .ok vs => .ok (⟨c.name, ov.type, vs⟩ :: rest)
      | .error e => .error e
    else
      match applyOverride rest ov with
      | .ok rest2 => .ok (c :: rest2)
      | .error e => .error e

/-- apply each override in turn -/
def applyOverrides (cols : List FrameColumn) :
    List ColumnSelector → Except Err (List FrameColumn)
  | [] => .ok cols
  | ov :: rest =>
    match applyOverride cols ov with
    | .error e => .error e
    | .ok cols2 => applyOverrides cols2 rest

/-- Modelled from the spec: `gframer.ToDataFrame` (package `lib/go/gframer`,
code of this repository that is not under the sources here).  Follows section
4.3 of the spec: the row set is the array elements or the single value; the
column set and order is the declared aliased column list, or the first-seen
union of row keys when no columns are declared; cells are aligned by row with
nulls for missing values and coerced per declared type; override columns then
re-type already-assembled columns in place; any irreconcilable cell aborts
with a frame-build error. -/
def toDataFrame (v : JSON) (o : GFramerOptions) : Except Err Frame :=
  let rows := rowsOf v
  let specs : List (String × String) :=
    if o.columns.isEmpty then (inferColumns rows).map (fun n => (n, ""))
    else (dedupFirst (o.columns.map ColumnSelector.outName)).map
      (fun n => (n, typeOfDeclared o.columns n))
  match exceptMapList (fun p => buildColumn rows p.1 p.2) specs with
  | .error e => .error e
  | .ok cols =>
    match applyOverrides cols o.overrideColumns with
    | .error e => .error e
    | .ok cols2 => .ok ⟨o.frameName, cols2⟩

/-- `getFrameFromResponseString`: unmarshal the response text (failure is an
un-marshaling error) and hand the value to the frame assembler together with
the declared and override columns -/
def getFrameFromResponseString (responseString : String)
    (options : FramerOptions) : Except Err Frame :=
  match parseJson responseString with
  | none => .error (.unmarshalFailed responseString)
  | some out => toDataFrame out (gframerOptions options)

/-! ## Entry points -/

/-- body of the multi-frame loop of `ToFrames` for one array element: build a
frame from the element's raw text, then, when the format is `timeseries` and
the frame's schema is a long time series, reshape it long-to-wide -/
def buildOne (E : Ext) (options : FramerOptions) (v : JSON) : Except Err Frame :=
  match getFrameFromResponseString (serialize v) options with
  | .error e => .error e
  | .ok frame =>
    if options.frameFormat = "timeseries" && E.isLong frame then
      match E.longToWide frame with
      | .error m => .error (.longToWideFailed m)
      | .ok f2 => .ok f2
    else .ok frame

/-- the multi-frame loop of `ToFrames`: frames accumulate in order; the first
failing element stops the loop, returning the frames accumulated so far
together with the error -/
def buildMulti (E : Ext) (options : FramerOptions) :
    List JSON → List Frame → List Frame × Option Err
  | [], acc => (acc, none)
  | v :: rest, acc =>
    match buildOne E options v with
    | .error e => (acc, some e)
    | .ok f => buildMulti E options rest (acc ++ [f])

/-- `ToFrames`: validate, reject the sqlite3 framer type, resolve the root,
project columns, then classify the projected text: an array whose elements
are all arrays builds one frame per element (with long-to-wide reshaping per
frame under the timeseries format); an array with a non-array element builds
a single frame with no reshaping; a non-array root builds a single frame with
reshaping.  Errors return alongside whatever frames were already built. -/
def ToFrames (E : Ext) (jsonString : String) (options : FramerOptions) :
    Outcome (List Frame × Option Err) :=
  match validateJson jsonString with
  | some e => .ret ([], some e)
  | none =>
    if options.framerType = "sqlite3" then
      .ret ([], some .sqlite3MultiFrame)
    else
      match GetRootData E jsonString options.rootSelector with
      | .crash m => .crash m
      | .ret (_, some e) => .ret ([], some e)
      | .ret (outString, none) =>
        match getColumnValuesFromResponseString outString options.columns with
        | (_, some e) => .ret ([], some e)
        | (outString2, none) =>
          match parseJson outString2 with
          | some (.arr items) =>
            if items.any (fun it => !isArrJ it) then
              match getFrameFromResponseString outString2 options with
              | .error e => .ret ([], some e)
              | .ok frame => .ret ([frame], none)
            else
              .ret (buildMulti E options items [])
          | _ =>
            match getFrameFromResponseString outString2 options with
            | .error e => .ret ([], some e)
            | .ok frame =>
              if options.frameFormat = "timeseries" && E.isLong frame then
                match E.longToWide frame with
                | .error m => .ret ([], some (.longToWideFailed m))
                | .ok f2 => .ret ([f2], none)
              else .ret ([frame], none)

/-- `ToFrame`: validate, then either run the sqlite3 query helper (for the
sqlite3 framer type) or resolve the root and project columns, and build a
single frame; no long-to-wide reshaping happens on this path -/
def ToFrame (E : Ext) (jsonString : String) (options : FramerOptions) :
    Outcome (Option Frame × Option Err) :=
  match validateJson jsonString with
  | some e => .ret (none, some e)
  | none =>
    if options.framerType = "sqlite3" then
      match E.sqlite3Query jsonString options.sqlite3Query options.rootSelector with
      | (_, some e) => .ret (none, some e)
      | (outString, none) =>
        match getFrameFromResponseString outString options with
        | .error e => .ret (none, some e)
        | .ok f => .ret (some f, none)
    else
      match GetRootData E jsonString options.rootSelector with
      | .crash m => .crash m
      | .ret (_, some e) => .ret (none, some e)
      | .ret (outString, none) =>
        match getColumnValuesFromResponseString outString options.columns with
        | (_, some e) => .ret (none, some e)
        | (outString2, none) =>
          match getFrameFromResponseString outString2 options with
          | .error e => .ret (none, some e)
          | .ok f => .ret (some f, none)

/-! ## Helpers for stating properties -/

/-- frames of a `ToFrames` outcome (empty on a crash) -/
def framesOf : Outcome (List Frame × Option Err) → List Frame
  | .crash _ => []
  | .ret (fs, _) => fs

/-- error of a `ToFrames` outcome (none on a crash) -/
def errOf : Outcome (List Frame × Option Err) → Option Err
  | .crash _ => none
  | .ret (_, e) => e

/-- whether an outcome is a runtime panic -/
def Outcome.isCrash {α : Type} : Outcome α → Bool
  | .crash _ => true
  | .ret _ => false

/-- a concrete collaborator instance: no selector compiles as JSONata, no
frame is a long time series, reshaping and the sqlite3 query are identities -/
def extDefault : Ext where
  jsonataCompile := fun _ => none
  isLong := fun _ => false
  longToWide := fun f => .ok f
  sqlite3Query := fun s _ _ => (s, none)

/-- a concrete collaborator instance whose long-series detector accepts every
frame not named `WIDE` and whose reshaper renames a frame to `WIDE`, making an
application of the reshaper observable -/
def extMarkLong : Ext where
  jsonataCompile := fun _ => none
  isLong := fun f => !(f.name = "WIDE")
  longToWide := fun f => .ok { f with name := "WIDE" }
  sqlite3Query := fun s _ _ => (s, none)

/-! ## Theorems -/

/-- lengths are preserved by a successful fallible map -/
theorem exceptMapList_length {α β : Type} (f : α → Except Err β) :
    ∀ (l : List α) (bs : List β), exceptMapList f l = .ok bs → bs.length = l.length := by
  intro l
  induction l with
  | nil =>
    intro bs h
    simp only [exceptMapList] at h
    cases h
    rfl
  | cons a as ih =>
    intro bs h
    simp only [exceptMapList] at h
    cases hb : f a with
    | error e => rw [hb] at h; cases h
    | ok b =>
      rw [hb] at h
      cases hr : exceptMapList f as with
      | error e => rw [hr] at h; cases h
      | ok bs2 =>
        rw [hr] at h
        cases h
        simp [ih bs2 hr]

/-- when every element builds, the multi-frame loop returns the accumulated
frames followed by all built frames, with no error -/
theorem buildMulti_ok (E : Ext) (options : FramerOptions) :
    ∀ (items : List JSON) (fs : List Frame),
      exceptMapList (buildOne E options) items = .ok fs →
      ∀ acc, buildMulti E options items acc = (acc ++ fs, none) := by
  intro items
  induction items with
  | nil =>
    intro fs h acc
    simp only [exceptMapList] at h
    cases h
    simp [buildMulti]
  | cons v rest ih =>
    intro fs h acc
    simp only [exceptMapList] at h
    cases hb : buildOne E options v with
    | error e => rw [hb] at h; cases h
    | ok f =>
      rw [hb] at h
      cases hr : exceptMapList (buildOne E options) rest with
      | error e => rw [hr] at h; cases h
      | ok bs =>
        rw [hr] at h
        cases h
        simp only [buildMulti, hb]
        rw [ih bs hr (acc ++ [f])]
        simp

/-- when a prefix builds and the next element fails, the multi-frame loop
stops there and returns the prefix frames together with the error; elements
after the failing one are never processed -/
theorem buildMulti_abort (E : Ext) (options : FramerOptions) :
    ∀ (l1 : List JSON) (v : JSON) (l2 : List JSON) (fs : List Frame) (e : Err),
      exceptMapList (buildOne E options) l1 = .ok fs →
      buildOne E options v = .error e →
      ∀ acc, buildMulti E options (l1 ++ v :: l2) acc = (acc ++ fs, some e) := by
  intro l1
  induction l1 with
  | nil =>
    intro v l2 fs e hok herr acc
    simp only [exceptMapList] at hok
    cases hok
    simp [buildMulti, herr]
  | cons u rest ih =>
    intro v l2 fs e hok herr acc
    simp only [exceptMapList] at hok
    cases hb : buildOne E options u with
    | error e2 => rw [hb] at hok; cases hok
    | ok f =>
      rw [hb] at hok
      cases hr : exceptMapList (buildOne E options) rest with
      | error e2 => rw [hr] at hok; cases hok
      | ok bs =>
        rw [hr] at hok
        cases hok
        have hstep : (u :: rest) ++ v :: l2 = u :: (rest ++ v :: l2) := rfl
        rw [hstep]
        simp only [buildMulti, hb]
        rw [ih v l2 bs e hr herr (acc ++ [f])]
        simp

/-- after validation passes, for a non-sqlite3 framer type with an empty root
selector and no declared columns, `ToFrames` reduces to classifying the parsed
input -/
theorem toFrames_reduce (E : Ext) (s : String) (options : FramerOptions)
    (hval : validateJson s = none)
    (hft : options.framerType ≠ "sqlite3")
    (hsel : options.rootSelector = "")
    (hcols : options.columns = []) :
    ToFrames E s options =
      match parseJson s with
      | some (.arr items) =>
        if items.any (fun it => !isArrJ it) then
          match getFrameFromResponseString s options with
          | .error e => .ret ([], some e)
          | .ok frame => .ret ([frame], none)
        else .ret (buildMulti E options items [])
      | _ =>
        match getFrameFromResponseString s options with
        | .error e => .ret ([], some e)
        | .ok frame =>
          if options.frameFormat = "timeseries" && E.isLong frame then
            match E.longToWide frame with
            | .error m => .ret ([], some (.longToWideFailed m))
            | .ok f2 => .ret ([f2], none)
          else .ret ([frame], none) := by
  unfold ToFrames
  rw [hval, if_neg hft, hsel]
  dsimp only [GetRootData, if_pos]
  rw [if_pos rfl]
  simp only [getColumnValuesFromResponseString, hcols]
  dsimp only [List.length_nil]
  rw [if_neg (by decide)]

/-- C1 (counterexample): the root `[[...],[...]]` is an array whose elements
are both arrays, so multi-frame mode applies; the second inner frame fails to
build (its override forces a scalar type onto a nested value), yet `ToFrames`
returns the frame built from the first inner array alongside the error — the
returned frame collection is not empty, contradicting the claim. -/
theorem C1_counterexample :
    parseJson "[[\x7b\"a\":1\x7d],[\x7b\"a\":\x7b\"b\":2\x7d\x7d]]" =
      some (.arr [.arr [.obj [("a", .num "1")]],
                  .arr [.obj [("a", .obj [("b", .num "2")])]]]) ∧
    ToFrames extDefault "[[\x7b\"a\":1\x7d],[\x7b\"a\":\x7b\"b\":2\x7d\x7d]]"
      { overrideColumns := [{ selector := "a", type := "number" }] } =
      .ret ([⟨"", [⟨"a", "number", [.num "1"]⟩]⟩],
        some (.frameBuild "cannot put a nested value in a scalar column")) ∧
    (framesOf (ToFrames extDefault "[[\x7b\"a\":1\x7d],[\x7b\"a\":\x7b\"b\":2\x7d\x7d]]"
      { overrideColumns := [{ selector := "a", type := "number" }] })).length ≠ 0 :=
  ⟨rfl, rfl, by decide⟩

/-- C2 (counterexample): on the root `[[{a:1}],[{a:2}]]` — an array whose
every element is an array — with a non-empty `Columns` list, `ToFrames`
produces one frame, not one frame per inner array: column projection runs
before classification and rewrites the root into an array of row objects. -/
theorem C2_counterexample :
    parseJson "[[\x7b\"a\":1\x7d],[\x7b\"a\":2\x7d]]" =
      some (.arr [.arr [.obj [("a", .num "1")]], .arr [.obj [("a", .num "2")]]]) ∧
    (framesOf (ToFrames extDefault "[[\x7b\"a\":1\x7d],[\x7b\"a\":2\x7d]]"
      { columns := [{ selector := "a" }] })).length = 1 ∧
    errOf (ToFrames extDefault "[[\x7b\"a\":1\x7d],[\x7b\"a\":2\x7d]]"
      { columns := [{ selector := "a" }] }) = none ∧
    (1 : Nat) ≠ 2 :=
  ⟨rfl, by decide, by decide, by decide⟩

/-- C3 (counterexample): during column projection no type conversion happens:
under type `number` the unparsable text `hello` is stored unchanged (not as
null), and the same numeric string projected under `timestamp_epoch_ms` and
under `timestamp_epoch_s` yields identical output, not two distinct dates. -/
theorem C3_counterexample :
    getColumnValuesFromResponseString "[\x7b\"foo\":\"hello\"\x7d]"
      [{ selector := "foo", type := "number" }] =
      ("[\x7b\"foo\":\"hello\"\x7d]", none) ∧
    getColumnValuesFromResponseString "[\x7b\"foo\":\"1325376000000\"\x7d]"
      [{ selector := "foo", type := "timestamp_epoch_ms" }] =
      getColumnValuesFromResponseString "[\x7b\"foo\":\"1325376000000\"\x7d]"
        [{ selector := "foo", type := "timestamp_epoch_s" }] :=
  ⟨rfl, rfl⟩

/-- C4 (code bug): on input `{}` with root selector `((` — a selector that
neither resolves as a literal path nor compiles as a JSONata program (the
collaborator instance models the compiler rejecting it) — root resolution
panics inside `jsonata.MustCompile` instead of returning the
`ErrInvalidRootSelector` error value the source's dead `expr == nil` branch
was meant to produce, and the panic propagates out of both entry points. -/
theorem C4_mustCompile_panics :
    GetRootData extDefault "\x7b\x7d" "((" = .crash "jsonata compile: ((" ∧
    (GetRootData extDefault "\x7b\x7d" "((").isCrash = true ∧
    ToFrames extDefault "\x7b\x7d" { rootSelector := "((" } =
      .crash "jsonata compile: ((" ∧
    ToFrame extDefault "\x7b\x7d" { rootSelector := "((" } =
      .crash "jsonata compile: ((" :=
  ⟨rfl, rfl, rfl, rfl⟩

/-- C5 (counterexample): with declared columns `b` then `a`, the projected
row's serialized key order is the alphabetical `a, b` (rows pass through a Go
map and `json.Marshal` sorts map keys), not the declared order `b, a`. -/
theorem C5_counterexample :
    getColumnValuesFromResponseString "[\x7b\"a\":1,\"b\":2\x7d]"
      [{ selector := "b" }, { selector := "a" }] =
      ("[\x7b\"a\":1,\"b\":2\x7d]", none) ∧
    ([{ selector := "b" }, { selector := "a" }] : List ColumnSelector).map
      ColumnSelector.outName = ["b", "a"] ∧
    rowKeys (canonGo (.obj (projectRow [{ selector := "b" }, { selector := "a" }]
      (.obj [("a", .num "1"), ("b", .num "2")])))) = ["a", "b"] ∧
    (["a", "b"] : List String) ≠ ["b", "a"] :=
  ⟨rfl, rfl, rfl, by decide⟩

/-- C6 (counterexample): with a collaborator that flags every frame not named
`WIDE` as a long time series, and under `FrameFormat = timeseries`: `ToFrame`
returns the long frame without reshaping it; the same input through `ToFrames`
is reshaped; and an array root containing non-array elements goes through the
single-frame branch of `ToFrames` that also skips reshaping. -/
theorem C6_counterexample :
    ToFrame extMarkLong "\x7b\"t\":1\x7d" { frameFormat := "timeseries" } =
      .ret (some ⟨"", [⟨"t", "", [.num "1"]⟩]⟩, none) ∧
    extMarkLong.isLong ⟨"", [⟨"t", "", [.num "1"]⟩]⟩ = true ∧
    ToFrames extMarkLong "\x7b\"t\":1\x7d" { frameFormat := "timeseries" } =
      .ret ([⟨"WIDE", [⟨"t", "", [.num "1"]⟩]⟩], none) ∧
    ToFrames extMarkLong "[\x7b\"t\":1\x7d]" { frameFormat := "timeseries" } =
      .ret ([⟨"", [⟨"t", "", [.num "1"]⟩]⟩], none) :=
  ⟨rfl, rfl, rfl, rfl⟩

/-- C7 (counterexample): when the literal path resolves to a string value,
root resolution returns the unquoted string content (`gjson`'s
`Result.String()`), which is not that value serialized as JSON text — it is
not even valid JSON text. -/
theorem C7_counterexample :
    GetRootData extDefault "\x7b\"a\":\"hi\"\x7d" "a" = .ret ("hi", none) ∧
    serialize (JSON.str "hi") = "\"hi\"" ∧
    ("hi" : String) ≠ "\"hi\"" ∧
    parseJson "hi" = none :=
  ⟨rfl, rfl, by decide, rfl⟩

/-- C9: empty and whitespace-only text fail with the `empty json received`
error and the text `{` fails with the `invalid json response received` error,
with no frame produced; the texts `{}` and `[]` succeed through `ToFrame` and
yield a frame with zero rows. -/
theorem C9_edge_inputs :
    ToFrame extDefault "" {} = .ret (none, some .emptyJson) ∧
    ToFrame extDefault "   " {} = .ret (none, some .emptyJson) ∧
    ToFrame extDefault "\x7b" {} = .ret (none, some .invalidJson) ∧
    ToFrame extDefault "\x7b\x7d" {} = .ret (some ⟨"", []⟩, none) ∧
    Frame.rowCount ⟨"", []⟩ = 0 ∧
    ToFrame extDefault "[]" {} = .ret (some ⟨"", []⟩, none) ∧
    ToFrames extDefault "" {} = .ret ([], some .emptyJson) ∧
    ToFrames extDefault "\x7b" {} = .ret ([], some .invalidJson) :=
  ⟨rfl, rfl, rfl, rfl, rfl, rfl, rfl, rfl⟩

/-- C1 (amended): in multi-frame mode (root an array of arrays), an error in
building any one inner frame aborts the call at that element — elements after
it are never processed — and the call returns that single error; but the frame
collection returned alongside the error holds exactly the frames already built
from the preceding inner arrays, so it is not necessarily empty. -/
theorem C1_amended (E : Ext) (s : String) (options : FramerOptions)
    (l1 : List JSON) (v : JSON) (l2 : List JSON) (fs : List Frame) (e : Err)
    (hval : validateJson s = none)
    (hft : options.framerType ≠ "sqlite3")
    (hsel : options.rootSelector = "")
    (hcols : options.columns = [])
    (hparse : parseJson s = some (.arr (l1 ++ v :: l2)))
    (harr : ∀ it ∈ l1 ++ v :: l2, isArrJ it = true)
    (hok : exceptMapList (buildOne E options) l1 = .ok fs)
    (herr : buildOne E options v = .error e) :
    ToFrames E s options = .ret (fs, some e) := by
  rw [toFrames_reduce E s options hval hft hsel hcols, hparse]
  have hany : (l1 ++ v :: l2).any (fun it => !isArrJ it) = false := by
    rw [Bool.eq_false_iff]
    intro hcontra
    obtain ⟨x, hx, hpx⟩ := List.any_eq_true.mp hcontra
    rw [harr x hx] at hpx
    cases hpx
  simp only [hany, Bool.false_eq_true, if_false]
  rw [buildMulti_abort E options l1 v l2 fs e hok herr []]
  simp

/-- C1 (witness): the amended abort behaviour at a concrete input — the first
inner array builds a frame, the second fails under the number override, and
the call returns that frame alongside the error. -/
theorem C1_amended_witness :
    ToFrames extDefault "[[\x7b\"a\":1\x7d],[\x7b\"a\":\x7b\"b\":2\x7d\x7d]]"
      { overrideColumns := [{ selector := "a", type := "number" }] } =
      .ret ([⟨"", [⟨"a", "number", [.num "1"]⟩]⟩],
        some (.frameBuild "cannot put a nested value in a scalar column")) :=
  C1_amended extDefault _ _
    [.arr [.obj [("a", .num "1")]]]
    (.arr [.obj [("a", .obj [("b", .num "2")])]])
    [] _ _
    rfl (by decide) rfl rfl rfl (by decide) rfl rfl

/-- C2 (amended): provided `Columns` is empty (so that column projection — which
runs before classification and otherwise rewrites the root into an array of row
objects — passes the root through unchanged), `ToFrames` classifies the parsed
root as the claim states: an array whose every element is an array builds one
frame per inner array; an array with at least one non-array element builds
exactly one frame; a non-array root builds exactly one frame (reshaped when the
timeseries format applies and the frame is long). -/
theorem C2_amended (E : Ext) (s : String) (options : FramerOptions)
    (hval : validateJson s = none)
    (hft : options.framerType ≠ "sqlite3")
    (hsel : options.rootSelector = "")
    (hcols : options.columns = []) :
    (∀ items fs, parseJson s = some (.arr items) →
      (∀ it ∈ items, isArrJ it = true) →
      exceptMapList (buildOne E options) items = .ok fs →
      ToFrames E s options = .ret (fs, none) ∧ fs.length = items.length) ∧
    (∀ items f, parseJson s = some (.arr items) →
      items.any (fun it => !isArrJ it) = true →
      toDataFrame (.arr items) (gframerOptions options) = .ok f →
      ToFrames E s options = .ret ([f], none)) ∧
    (∀ v f, parseJson s = some v → isArrJ v = false →
      toDataFrame v (gframerOptions options) = .ok f →
      (options.frameFormat = "timeseries" && E.isLong f) = false →
      ToFrames E s options = .ret ([f], none)) ∧
    (∀ v f f2, parseJson s = some v → isArrJ v = false →
      toDataFrame v (gframerOptions options) = .ok f →
      options.frameFormat = "timeseries" → E.isLong f = true →
      E.longToWide f = .ok f2 →
      ToFrames E s options = .ret ([f2], none)) := by
  refine ⟨?_, ?_, ?_, ?_⟩
  · intro items fs hparse harr hok
    have hany : items.any (fun it => !isArrJ it) = false := by
      rw [Bool.eq_false_iff]
      intro hcontra
      obtain ⟨x, hx, hpx⟩ := List.any_eq_true.mp hcontra
      rw [harr x hx] at hpx
      cases hpx
    constructor
    · rw [toFrames_reduce E s options hval hft hsel hcols, hparse]
      simp only [hany, Bool.false_eq_true, if_false]
      rw [buildMulti_ok E options items fs hok []]
      simp
    · exact exceptMapList_length (buildOne E options) items fs hok
  · intro items f hparse hany hbuild
    have hget : getFrameFromResponseString s options = .ok f := by
      unfold getFrameFromResponseString
      rw [hparse]
      exact hbuild
    rw [toFrames_reduce E s options hval hft hsel hcols, hparse]
    simp only [hany, if_true, hget]
  · intro v f hparse hnotarr hbuild hres
    have hget : getFrameFromResponseString s options = .ok f := by
      unfold getFrameFromResponseString
      rw [hparse]
      exact hbuild
    rw [toFrames_reduce E s options hval hft hsel hcols, hparse]
    cases v with
    | arr items => cases hnotarr
    | null => simp only [hget, hres, Bool.false_eq_true, if_false]
    | bool b => simp only [hget, hres, Bool.false_eq_true, if_false]
    | num raw => simp only [hget, hres, Bool.false_eq_true, if_false]
    | str s2 => simp only [hget, hres, Bool.false_eq_true, if_false]
    | obj es => simp only [hget, hres, Bool.false_eq_true, if_false]
  · intro v f f2 hparse hnotarr hbuild hts hlong hwide
    have hget : getFrameFromResponseString s options = .ok f := by
      unfold getFrameFromResponseString
      rw [hparse]
      exact hbuild
    have hcond : (options.frameFormat = "timeseries" && E.isLong f) = true := by
      rw [hts, hlong]
      simp
    rw [toFrames_reduce E s options hval hft hsel hcols, hparse]
    cases v with
    | arr items => cases hnotarr
    | null => simp only [hget, hcond, if_true, hwide]
    | bool b => simp only [hget, hcond, if_true, hwide]
    | num raw => simp only [hget, hcond, if_true, hwide]
    | str s2 => simp only [hget, hcond, if_true, hwide]
    | obj es => simp only [hget, hcond, if_true, hwide]

/-- C2 (witness): the amended classification at a concrete input — the root
`[[...],[...]]` of two inner arrays with no declared columns builds two
frames. -/
theorem C2_amended_witness :
    ToFrames extDefault "[[\x7b\"a\":1\x7d],[\x7b\"a\":2\x7d]]" {} =
      .ret ([⟨"", [⟨"a", "", [.num "1"]⟩]⟩, ⟨"", [⟨"a", "", [.num "2"]⟩]⟩], none) :=
  ((C2_amended extDefault "[[\x7b\"a\":1\x7d],[\x7b\"a\":2\x7d]]" {}
      rfl (by decide) rfl rfl).1
    [.arr [.obj [("a", .num "1")]], .arr [.obj [("a", .num "2")]]]
    [⟨"", [⟨"a", "", [.num "1"]⟩]⟩, ⟨"", [⟨"a", "", [.num "2"]⟩]⟩]
    rfl (by decide) rfl).1


/-- retyping the column selectors does not change a projected row -/
theorem projectRow_retype (columns : List ColumnSelector)
    (f g : ColumnSelector → String) (row : JSON) :
    projectRow (columns.map fun c => { c with type := f c, timeFormat := g c }) row =
      projectRow columns row := by
  unfold projectRow
  rw [List.foldl_map]
  rfl

/-- C3 (amended): column projection stores values unconverted —
`convertFieldValueType` ignores the declared type and returns its input — so
the projected output is entirely independent of the `Type` and `TimeFormat`
fields of the declared columns; per-type coercion (number, the timestamp
epoch variants) does not occur at projection time and is left to the
downstream frame assembler. -/
theorem C3_amended (responseString : String) (columns : List ColumnSelector)
    (f g : ColumnSelector → String) :
    getColumnValuesFromResponseString responseString
      (columns.map fun c => { c with type := f c, timeFormat := g c }) =
    getColumnValuesFromResponseString responseString columns := by
  have hpr : projectRow (columns.map fun c => { c with type := f c, timeFormat := g c }) =
      projectRow columns :=
    funext (fun row => projectRow_retype columns f g row)
  unfold getColumnValuesFromResponseString
  rw [List.length_map, hpr]

/-- C7 (amended): with an empty selector, root resolution returns the input
text unchanged; when the literal structural path resolves, root resolution
returns the resolved value's `gjson` text rendering — raw JSON text for
objects and arrays, literal text for numbers and booleans, the unquoted
content for strings, the empty string for null — without invoking the
expression-language collaborator at all (the conclusion holds for every
collaborator instance `E`). -/
theorem C7_amended (E : Ext) (s sel : String) :
    (sel = "" → GetRootData E s sel = .ret (s, none)) ∧
    (∀ d v, sel ≠ "" → parseJson s = some d → pathGet d sel = some v →
      GetRootData E s sel = .ret (resultString v, none)) := by
  constructor
  · intro h
    subst h
    unfold GetRootData
    rw [if_pos rfl]
  · intro d v hne hd hv
    unfold GetRootData
    rw [if_neg hne, hd]
    show (match pathGet d sel with
          | some r => Outcome.ret (resultString r, none)
          | none => _) = _
    rw [hv]

/-- C7 (witness): the amended fast path at concrete inputs — an empty selector
returns the input unchanged, and a resolving path returns the subtree's raw
JSON text without touching the expression language. -/
theorem C7_amended_witness :
    GetRootData extDefault "\x7b\"a\":[1,2]\x7d" "" =
      .ret ("\x7b\"a\":[1,2]\x7d", none) ∧
    GetRootData extDefault "\x7b\"a\":[1,2]\x7d" "a" = .ret ("[1,2]", none) :=
  ⟨(C7_amended extDefault "\x7b\"a\":[1,2]\x7d" "").1 rfl,
   (C7_amended extDefault "\x7b\"a\":[1,2]\x7d" "a").2
     (.obj [("a", .arr [.num "1", .num "2"])])
     (.arr [.num "1", .num "2"]) (by decide) rfl rfl⟩

/-- C10: for every syntactically valid, non-empty input, `ToFrames` with
framer type `sqlite3` returns the multi-frame-not-implemented error and an
empty frame collection, while `ToFrame` accepts the sqlite3 framer type and
proceeds through the sqlite3 query path to build a frame (shown with the
identity query collaborator on `{}`). -/
theorem C10_sqlite3 (E : Ext) (s : String) (options : FramerOptions)
    (hft : options.framerType = "sqlite3")
    (hval : validateJson s = none) :
    ToFrames E s options = .ret ([], some .sqlite3MultiFrame) ∧
    ToFrame extDefault "\x7b\x7d" { framerType := "sqlite3" } =
      .ret (some ⟨"", []⟩, none) := by
  constructor
  · unfold ToFrames
    rw [hval, hft]
    rw [if_pos rfl]
  · rfl

/-- C10 (witness): the sqlite3 rejection of `ToFrames` at a concrete valid
input. -/
theorem C10_sqlite3_witness :
    ToFrames extDefault "[1,2]" { framerType := "sqlite3" } =
      .ret ([], some .sqlite3MultiFrame) :=
  (C10_sqlite3 extDefault "[1,2]" { framerType := "sqlite3" } rfl rfl).1


/-- C6 (amended): long-to-wide reshaping happens only inside `ToFrames`:
`ToFrame` never reshapes (its result is independent of the long-series
detector and the reshaper); within `ToFrames`, the per-element loop body
applies the reshaper exactly when the format is `timeseries` and the built
frame is a long series (propagating reshaper errors), passes other frames
through unchanged, and the single-frame branch taken for an array root with a
non-array element returns the built frame without any reshaping. -/
theorem C6_amended :
    (∀ (E : Ext) (iso : Frame → Bool) (ltw : Frame → Except String Frame)
        (s : String) (options : FramerOptions),
      ToFrame { E with isLong := iso, longToWide := ltw } s options =
        ToFrame E s options) ∧
    (∀ (E : Ext) (options : FramerOptions) (v : JSON) (f f2 : Frame),
      options.frameFormat = "timeseries" →
      getFrameFromResponseString (serialize v) options = .ok f →
      E.isLong f = true → E.longToWide f = .ok f2 →
      buildOne E options v = .ok f2) ∧
    (∀ (E : Ext) (options : FramerOptions) (v : JSON) (f : Frame) (m : String),
      options.frameFormat = "timeseries" →
      getFrameFromResponseString (serialize v) options = .ok f →
      E.isLong f = true → E.longToWide f = .error m →
      buildOne E options v = .error (.longToWideFailed m)) ∧
    (∀ (E : Ext) (options : FramerOptions) (v : JSON) (f : Frame),
      (options.frameFormat = "timeseries" && E.isLong f) = false →
      getFrameFromResponseString (serialize v) options = .ok f →
      buildOne E options v = .ok f) ∧
    (∀ (E : Ext) (s : String) (options : FramerOptions) (items : List JSON) (f : Frame),
      validateJson s = none → options.framerType ≠ "sqlite3" →
      options.rootSelector = "" → options.columns = [] →
      parseJson s = some (.arr items) →
      items.any (fun it => !isArrJ it) = true →
      toDataFrame (.arr items) (gframerOptions options) = .ok f →
      ToFrames E s options = .ret ([f], none)) := by
  refine ⟨?_, ?_, ?_, ?_, ?_⟩
  · intro E iso ltw s options
    rfl
  · intro E options v f f2 hts hget hlong hwide
    unfold buildOne
    rw [hget]
    have hcond : (options.frameFormat = "timeseries" && E.isLong f) = true := by
      rw [hts, hlong]
      simp
    simp only [hcond, if_true, hwide]
  · intro E options v f m hts hget hlong hwide
    unfold buildOne
    rw [hget]
    have hcond : (options.frameFormat = "timeseries" && E.isLong f) = true := by
      rw [hts, hlong]
      simp
    simp only [hcond, if_true, hwide]
  · intro E options v f hres hget
    unfold buildOne
    rw [hget]
    simp only [hres, Bool.false_eq_true, if_false]
  · intro E s options items f hval hft hsel hcols hparse hany hbuild
    have hget : getFrameFromResponseString s options = .ok f := by
      unfold getFrameFromResponseString
      rw [hparse]
      exact hbuild
    rw [toFrames_reduce E s options hval hft hsel hcols, hparse]
    simp only [hany, if_true, hget]

/-- C6 (witness): the amended reshaping behaviour at a concrete input — the
loop body reshapes a long frame under the timeseries format. -/
theorem C6_amended_witness :
    buildOne extMarkLong { frameFormat := "timeseries" } (.obj [("t", .num "1")]) =
      .ok ⟨"WIDE", [⟨"t", "", [.num "1"]⟩]⟩ :=
  C6_amended.2.1 extMarkLong { frameFormat := "timeseries" } (.obj [("t", .num "1")])
    ⟨"", [⟨"t", "", [.num "1"]⟩]⟩ ⟨"WIDE", [⟨"t", "", [.num "1"]⟩]⟩
    rfl rfl (by decide) rfl


/-- looking up the key just stored finds the stored value -/
theorem assocFind_mapInsert_self (m : List (String × JSON)) (k : String) (v : JSON) :
    assocFind (mapInsert m k v) k = some v := by
  induction m with
  | nil => simp [mapInsert, assocFind]
  | cons e rest ih =>
    obtain ⟨k2, v2⟩ := e
    by_cases h : k2 = k
    · simp [mapInsert, assocFind, h]
    · simp [mapInsert, assocFind, h, ih]

/-- storing under one key leaves lookups of other keys unchanged -/
theorem assocFind_mapInsert_other (m : List (String × JSON)) (k k2 : String)
    (v : JSON) (h : k2 ≠ k) :
    assocFind (mapInsert m k2 v) k = assocFind m k := by
  induction m with
  | nil => simp [mapInsert, assocFind, h]
  | cons e rest ih =>
    obtain ⟨k3, v3⟩ := e
    by_cases h3 : k3 = k2
    · subst h3
      simp [mapInsert, assocFind, h]
    · by_cases h4 : k3 = k
      · simp [mapInsert, assocFind, h3, h4, Ne.symm h]
      · simp [mapInsert, assocFind, h3, h4, ih]

/-- lookup through the projection fold equals a fold that keeps the last
matching column selector's value -/
theorem projectRow_lookup_aux (row : JSON) (n : String) :
    ∀ (cols : List ColumnSelector) (oi : List (String × JSON)),
      assocFind (List.foldl
        (fun oi col => mapInsert oi col.outName (selectedValue row col)) oi cols) n =
      List.foldl
        (fun acc c => if c.outName = n then some (selectedValue row c) else acc)
        (assocFind oi n) cols := by
  intro cols
  induction cols with
  | nil => intro oi; rfl
  | cons c rest ih =>
    intro oi
    rw [List.foldl_cons, List.foldl_cons]
    rw [ih (mapInsert oi c.outName (selectedValue row c))]
    by_cases h : c.outName = n
    · rw [if_pos h, h, assocFind_mapInsert_self]
    · rw [if_neg h, assocFind_mapInsert_other oi n c.outName _ h]

/-- keeping the last matching selector and then extracting its value is the
same as folding with values directly -/
theorem lastSpec_fold_map (row : JSON) (n : String) :
    ∀ (cols : List ColumnSelector) (a : Option ColumnSelector),
      List.foldl
        (fun acc c => if c.outName = n then some (selectedValue row c) else acc)
        (a.map (selectedValue row)) cols =
      (List.foldl (fun acc c => if c.outName = n then some c else acc) a cols).map
        (selectedValue row) := by
  intro cols
  induction cols with
  | nil => intro a; rfl
  | cons c rest ih =>
    intro a
    rw [List.foldl_cons, List.foldl_cons]
    by_cases h : c.outName = n
    · rw [if_pos h, if_pos h]
      exact ih (some c)
    · rw [if_neg h, if_neg h]
      exact ih a

/-- C8: looking any name up in a projected row finds exactly the value selected
by the last column selector whose output name — the alias, defaulting to the
selector — equals that name (so each selector's value is stored under its
aliased name, later duplicates overwriting earlier ones, and names declared by
no selector are absent); the selected value is the raw value at the selector
path, null when the path is absent; and the concrete example builds a frame
with a `user-name` column holding `bar` and no `username` column. -/
theorem C8_projection :
    (∀ (columns : List ColumnSelector) (row : JSON) (n : String),
      assocFind (projectRow columns row) n =
        (lastSpecFor columns n).map (selectedValue row)) ∧
    (∀ (row : JSON) (c : ColumnSelector), pathGet row c.selector = none →
      selectedValue row c = JSON.null) ∧
    ToFrame extDefault "\x7b\"username\":\"bar\"\x7d"
      { columns := [{ selector := "username", aliasName := "user-name" }] } =
      .ret (some ⟨"", [⟨"user-name", "", [.str "bar"]⟩]⟩, none) := by
  refine ⟨?_, ?_, rfl⟩
  · intro columns row n
    unfold projectRow lastSpecFor
    rw [projectRow_lookup_aux row n columns []]
    exact lastSpec_fold_map row n columns none
  · intro row c h
    unfold selectedValue
    rw [h]
    rfl

/-- C8 (witness): the projection lookup at the concrete example — `username`
aliased to `user-name` stores the value under `user-name` while `username`
itself is absent from the projected row. -/
theorem C8_projection_witness :
    assocFind (projectRow [{ selector := "username", aliasName := "user-name" }]
      (.obj [("username", .str "bar")])) "user-name" = some (.str "bar") ∧
    assocFind (projectRow [{ selector := "username", aliasName := "user-name" }]
      (.obj [("username", .str "bar")])) "username" = none :=
  ⟨(C8_projection.1 [{ selector := "username", aliasName := "user-name" }]
      (.obj [("username", .str "bar")]) "user-name").trans rfl,
   (C8_projection.1 [{ selector := "username", aliasName := "user-name" }]
      (.obj [("username", .str "bar")]) "username").trans rfl⟩


/-- membership in the keys of a Go-map store: the stored key joins the key set -/
theorem mem_keys_mapInsert (ki : String) (v : JSON) :
    ∀ (m : List (String × JSON)) (k : String),
      (k ∈ (mapInsert m ki v).map Prod.fst ↔ k = ki ∨ k ∈ m.map Prod.fst) := by
  intro m
  induction m with
  | nil => intro k; simp [mapInsert]
  | cons e rest ih =>
    intro k
    obtain ⟨k2, v2⟩ := e
    by_cases h : k2 = ki
    · subst h
      rw [show mapInsert ((k2, v2) :: rest) k2 v = (k2, v) :: rest from by
        simp [mapInsert]]
      simp only [List.map_cons, List.mem_cons]
      tauto
    · rw [show mapInsert ((k2, v2) :: rest) ki v = (k2, v2) :: mapInsert rest ki v from by
        simp [mapInsert, h]]
      simp only [List.map_cons, List.mem_cons]
      rw [ih k]
      tauto

/-- keys of the projection fold: the accumulated keys plus each selector's
output name -/
theorem mem_keys_projectRow_aux (row : JSON) (k : String) :
    ∀ (cols : List ColumnSelector) (oi : List (String × JSON)),
      (k ∈ (List.foldl
          (fun oi col => mapInsert oi col.outName (selectedValue row col)) oi cols).map
            Prod.fst ↔
        k ∈ oi.map Prod.fst ∨ k ∈ cols.map ColumnSelector.outName) := by
  intro cols
  induction cols with
  | nil => intro oi; simp
  | cons c rest ih =>
    intro oi
    rw [List.foldl_cons]
    rw [ih (mapInsert oi c.outName (selectedValue row c))]
    rw [mem_keys_mapInsert]
    simp only [List.map_cons, List.mem_cons]
    tauto

/-- canonicalizing entry values leaves the keys unchanged -/
theorem canonEntries_keys :
    ∀ es : List (String × JSON), (canonEntries es).map Prod.fst = es.map Prod.fst := by
  intro es
  induction es with
  | nil => rfl
  | cons e rest ih =>
    obtain ⟨k, v⟩ := e
    simp [canonEntries, ih]

/-- unfolding equation of the entry insertion sort step -/
theorem insertEntry_cons (e f : String × JSON) (fs : List (String × JSON)) :
    insertEntry e (f :: fs) =
      if strLe e.1 f.1 then e :: f :: fs else f :: insertEntry e fs := rfl

/-- membership in the keys after inserting an entry -/
theorem mem_keys_insertEntry (e : String × JSON) :
    ∀ (l : List (String × JSON)) (k : String),
      (k ∈ (insertEntry e l).map Prod.fst ↔ k = e.1 ∨ k ∈ l.map Prod.fst) := by
  intro l
  induction l with
  | nil => intro k; simp [insertEntry]
  | cons f fs ih =>
    intro k
    rw [insertEntry_cons]
    by_cases h : strLe e.1 f.1 = true
    · rw [if_pos h]
      simp
    · rw [if_neg h]
      simp [ih]
      tauto

/-- sorting entries preserves the key set -/
theorem mem_keys_sortEntries :
    ∀ (l : List (String × JSON)) (k : String),
      (k ∈ (sortEntries l).map Prod.fst ↔ k ∈ l.map Prod.fst) := by
  intro l
  induction l with
  | nil => intro k; simp [sortEntries]
  | cons e es ih =>
    intro k
    simp only [sortEntries]
    rw [mem_keys_insertEntry]
    simp [ih]

/-- the byte-wise key order is total -/
theorem charsLe_total : ∀ a b : List Char, charsLe a b = true ∨ charsLe b a = true := by
  intro a
  induction a with
  | nil => intro b; left; rfl
  | cons x xs ih =>
    intro b
    cases b with
    | nil => right; rfl
    | cons y ys =>
      by_cases h1 : x.toNat < y.toNat
      · left; simp [charsLe, h1]
      · by_cases h2 : y.toNat < x.toNat
        · right; simp [charsLe, h2]
        · cases ih ys with
          | inl h => left; simp [charsLe, h1, h2, h]
          | inr h => right; simp [charsLe, h1, h2, h]

/-- the key order on strings is total -/
theorem strLe_total (a b : String) : strLe a b = true ∨ strLe b a = true :=
  charsLe_total a.data b.data

/-- unfolding equation of the adjacent sortedness check -/
theorem keysSortedB_cons2 (a b : String) (l : List String) :
    keysSortedB (a :: b :: l) = (strLe a b && keysSortedB (b :: l)) := rfl

/-- inserting an entry into a key-sorted entry list keeps the keys sorted -/
theorem keysSortedB_insertEntry (e : String × JSON) :
    ∀ l : List (String × JSON), keysSortedB (l.map Prod.fst) = true →
      keysSortedB ((insertEntry e l).map Prod.fst) = true := by
  intro l
  induction l with
  | nil => intro _; rfl
  | cons f fs ih =>
    intro hs
    rw [insertEntry_cons]
    by_cases h : strLe e.1 f.1 = true
    · rw [if_pos h]
      simp only [List.map_cons, keysSortedB_cons2, h, Bool.true_and]
      simp only [List.map_cons] at hs
      exact hs
    · have h2 : strLe f.1 e.1 = true := (strLe_total e.1 f.1).resolve_left h
      rw [if_neg h]
      cases fs with
      | nil =>
        simp only [insertEntry, List.map_cons, List.map_nil, keysSortedB_cons2, h2,
          Bool.true_and]
        rfl
      | cons g gs =>
        simp only [List.map_cons, keysSortedB_cons2] at hs
        rw [Bool.and_eq_true] at hs
        obtain ⟨hfg, htl⟩ := hs
        have hs' : keysSortedB ((g :: gs).map Prod.fst) = true := by
          simp only [List.map_cons]
          exact htl
        have htail := ih hs'
        by_cases h3 : strLe e.1 g.1 = true
        · have hunf : insertEntry e (g :: gs) = e :: g :: gs := by
            rw [insertEntry_cons, if_pos h3]
          rw [hunf]
          simp only [List.map_cons, keysSortedB_cons2, h2, h3, Bool.true_and]
          simp only [List.map_cons] at hs'
          exact hs'
        · have hunf : insertEntry e (g :: gs) = g :: insertEntry e gs := by
            rw [insertEntry_cons, if_neg h3]
          rw [hunf]
          rw [hunf] at htail
          simp only [List.map_cons] at htail ⊢
          rw [keysSortedB_cons2, hfg, Bool.true_and]
          exact htail

/-- sorted entry lists produced by the entry insertion sort -/
theorem keysSortedB_sortEntries :
    ∀ l : List (String × JSON), keysSortedB ((sortEntries l).map Prod.fst) = true := by
  intro l
  induction l with
  | nil => rfl
  | cons e es ih => exact keysSortedB_insertEntry e (sortEntries es) ih

/-- a built column carries the requested name -/
theorem buildColumn_name (rows : List JSON) (n t : String) (c : FrameColumn)
    (h : buildColumn rows n t = .ok c) : c.name = n := by
  unfold buildColumn at h
  cases hm : exceptMapList (fun r => coerceValue t (cellOf r n)) rows with
  | error e => rw [hm] at h; cases h
  | ok vs => rw [hm] at h; cases h; rfl

/-- a successful column build pass yields columns named after the specs -/
theorem buildColumns_names (rows : List JSON) :
    ∀ (specs : List (String × String)) (cols : List FrameColumn),
      exceptMapList (fun p => buildColumn rows p.1 p.2) specs = .ok cols →
      cols.map FrameColumn.name = specs.map Prod.fst := by
  intro specs
  induction specs with
  | nil =>
    intro cols h
    simp only [exceptMapList] at h
    cases h
    rfl
  | cons p rest ih =>
    intro cols h
    simp only [exceptMapList] at h
    cases hb : buildColumn rows p.1 p.2 with
    | error e => rw [hb] at h; cases h
    | ok c =>
      rw [hb] at h
      cases hr : exceptMapList (fun p => buildColumn rows p.1 p.2) rest with
      | error e => rw [hr] at h; cases h
      | ok cs =>
        rw [hr] at h
        cases h
        simp [buildColumn_name rows p.1 p.2 c hb, ih cs hr]

/-- one override keeps the column names (it re-types one column in place) -/
theorem applyOverride_names (ov : ColumnSelector) :
    ∀ (cols cols2 : List FrameColumn), applyOverride cols ov = .ok cols2 →
      cols2.map FrameColumn.name = cols.map FrameColumn.name := by
  intro cols
  induction cols with
  | nil =>
    intro cols2 h
    simp only [applyOverride] at h
    cases h
    rfl
  | cons c rest ih =>
    intro cols2 h
    simp only [applyOverride] at h
    by_cases hn : c.name = ov.selector
    · rw [if_pos hn] at h
      cases hm : exceptMapList (coerceValue ov.type) c.values with
      | error e => rw [hm] at h; cases h
      | ok vs => rw [hm] at h; cases h; rfl
    · rw [if_neg hn] at h
      cases hr : applyOverride rest ov with
      | error e => rw [hr] at h; cases h
      | ok rest2 =>
        rw [hr] at h
        cases h
        simp [ih rest2 hr]

/-- applying all overrides keeps the column names -/
theorem applyOverrides_names :
    ∀ (ovs : List ColumnSelector) (cols cols2 : List FrameColumn),
      applyOverrides cols ovs = .ok cols2 →
      cols2.map FrameColumn.name = cols.map FrameColumn.name := by
  intro ovs
  induction ovs with
  | nil =>
    intro cols cols2 h
    simp only [applyOverrides] at h
    cases h
    rfl
  | cons ov rest ih =>
    intro cols cols2 h
    simp only [applyOverrides] at h
    cases ho : applyOverride cols ov with
    | error e => rw [ho] at h; cases h
    | ok colsm =>
      rw [ho] at h
      exact (ih colsm cols2 h).trans (applyOverride_names ov cols colsm ho)

/-- C5 (amended): each projected row's column set — after the Go-map marshal
normal form — is exactly the set of declared aliased output names, but its
serialized key order is the ascending byte-wise key order (Go's `json.Marshal`
sorts map keys), not the declared order; at the frame level the assembler's
column order is the declared aliased order (first occurrences) when columns
are declared, and the first-seen union of row keys when inferred. -/
theorem C5_amended :
    (∀ (columns : List ColumnSelector) (row : JSON) (k : String),
      k ∈ rowKeys (canonGo (.obj (projectRow columns row))) ↔
        k ∈ columns.map ColumnSelector.outName) ∧
    (∀ (columns : List ColumnSelector) (row : JSON),
      keysSortedB (rowKeys (canonGo (.obj (projectRow columns row)))) = true) ∧
    (∀ (v : JSON) (o : GFramerOptions) (fr : Frame),
      toDataFrame v o = .ok fr →
      (o.columns ≠ [] →
        fr.columnNames = dedupFirst (o.columns.map ColumnSelector.outName)) ∧
      (o.columns = [] → fr.columnNames = inferColumns (rowsOf v))) := by
  refine ⟨?_, ?_, ?_⟩
  · intro columns row k
    show k ∈ (sortEntries (canonEntries (projectRow columns row))).map Prod.fst ↔ _
    rw [mem_keys_sortEntries, canonEntries_keys]
    unfold projectRow
    rw [mem_keys_projectRow_aux row k columns []]
    simp
  · intro columns row
    exact keysSortedB_sortEntries (canonEntries (projectRow columns row))
  · intro v o fr h
    simp only [toDataFrame] at h
    cases hm : exceptMapList
        (fun p => buildColumn (rowsOf v) p.1 p.2)
        (if o.columns.isEmpty then (inferColumns (rowsOf v)).map (fun n => (n, ""))
         else (dedupFirst (o.columns.map ColumnSelector.outName)).map
           (fun n => (n, typeOfDeclared o.columns n))) with
    | error e => rw [hm] at h; cases h
    | ok cols =>
      rw [hm] at h
      have h2 : (match applyOverrides cols o.overrideColumns with
          | Except.error e => (Except.error e : Except Err Frame)
          | Except.ok cols2 => Except.ok ⟨o.frameName, cols2⟩) = Except.ok fr := h
      cases ho : applyOverrides cols o.overrideColumns with
      | error e => rw [ho] at h2; cases h2
      | ok cols2 =>
        rw [ho] at h2
        cases h2
        have hnames := (applyOverrides_names o.overrideColumns cols cols2 ho).trans
          (buildColumns_names (rowsOf v) _ cols hm)
        constructor
        · intro hne
          have hempty : o.columns.isEmpty = false := by
            cases hc : o.columns with
            | nil => exact absurd hc hne
            | cons a l => rfl
          rw [hempty] at hnames
          show cols2.map FrameColumn.name = _
          rw [hnames]
          rw [if_neg (by decide : ¬ (false = true)), List.map_map]
          rw [show (Prod.fst ∘ fun n => (n, typeOfDeclared o.columns n)) = id from rfl,
            List.map_id]
        · intro heq
          have hempty : o.columns.isEmpty = true := by rw [heq]; rfl
          rw [hempty] at hnames
          show cols2.map FrameColumn.name = _
          rw [hnames]
          rw [if_pos (rfl : true = true), List.map_map]
          rw [show (Prod.fst ∘ fun n => (n, "")) = id from rfl, List.map_id]

/-- C5 (witness): the amended frame-level order at a concrete input — columns
declared as `b` then `a` give a frame whose column order is the declared `b`,
`a`. -/
theorem C5_amended_witness :
    Frame.columnNames ⟨"", [⟨"b", "", [JSON.null]⟩, ⟨"a", "", [.num "1"]⟩]⟩ =
      ["b", "a"] :=
  (((C5_amended.2.2 (.obj [("a", .num "1")])
      { columns := [{ selector := "b" }, { selector := "a" }] }
      ⟨"", [⟨"b", "", [JSON.null]⟩, ⟨"a", "", [.num "1"]⟩]⟩ rfl).1 (by decide)).trans rfl)

end Jsonframer
